import Mathlib

/-!
Verification of the CMMS parts-consumption and equipment-history core.

This file shallowly embeds the transactional parts-consumption dialog of
`cm_parts_integration.py` (class `PartsConsumptionDialog`) and the read-only
aggregation functions of `equipment_history.py` (`get_equipment_health_score`,
`get_maintenance_trends`), and proves or refutes the specified properties.

Modelling conventions:
* SQL tables become lists of records; a `DB` value is the committed database
  state.  Python `float` quantities, prices and hours are modelled as exact
  rationals `ℚ` (all comparisons performed by the code are order comparisons
  that the rational model reflects at every input exercised here).
* The psycopg2 connection runs one transaction per `save_and_close`: all
  cursor writes are buffered in a transaction view and only published by
  `conn.commit()`; `conn.rollback()` discards them.  A possible storage
  failure is modelled by an oracle `failAt : Option Nat` naming the item
  (or the final commit, index = length) whose cursor operation raises.
* GUI-only behaviour (widget construction, colors, message-box text,
  `last_updated` timestamps, the `ORDER BY part_number` display order of the
  loaded list, and the search filter, which only selects a displayed subset
  of the loaded snapshot) is not part of the state model.
-/

/-- A row of the `mro_inventory` table (the columns this core reads). -/
structure InvRow where
  part_number : String
  name : String
  location : String
  quantity_in_stock : ℚ
  unit_price : ℚ
  status : String
deriving Repr, DecidableEq

/-- A row of the `mro_stock_transactions` ledger table, as inserted by
`save_and_close` (transaction_date not modelled). -/
structure StockTransaction where
  part_number : String
  transaction_type : String
  quantity : ℚ
  technician_name : String
  notes : String
deriving Repr, DecidableEq

/-- A row of the `cm_parts_used` table (recorded_date not modelled). -/
structure CMPartUsed where
  cm_number : String
  part_number : String
  quantity_used : ℚ
  total_cost : ℚ
  recorded_by : String
  notes : String
deriving Repr, DecidableEq

/-- The committed database state seen by the consumption dialog. -/
structure DB where
  mro_inventory : List InvRow
  mro_stock_transactions : List StockTransaction
  cm_parts_used : List CMPartUsed
deriving Repr, DecidableEq

/-- An entry of the dialog's pending `self.consumed_parts` list. -/
structure ConsumedPart where
  part_number : String
  description : String
  quantity : ℚ
deriving Repr, DecidableEq

/-- Errors raised by `add_consumed_part` via message boxes.  `OutOfStock` and
`InsufficientStock` carry the numeric values the message box reports. -/
inductive AddError where
  | QtyNotPositive : AddError
  | OutOfStock : ℚ → AddError
  | InsufficientStock : ℚ → ℚ → AddError
  | DuplicatePart : AddError
deriving Repr, DecidableEq

/-- `load_parts_data`: `SELECT part_number, name, location, quantity_in_stock
FROM mro_inventory WHERE status = 'Active' ORDER BY part_number`.  The result
is the snapshot `self.all_parts_data` held by the dialog; the `ORDER BY` only
fixes the display order and is not modelled. -/
def load_parts_data (db : DB) : List InvRow :=
  db.mro_inventory.filter (fun r => r.status = "Active")

/-- `add_consumed_part`, for a selected row `sel` of the loaded snapshot and a
parsed quantity `qty_used`: reject non-positive quantity, reject when the
snapshot quantity is ≤ 0 (out of stock), reject when `qty_used` exceeds the
snapshot quantity (insufficient stock), reject a part already in the pending
list, and otherwise append to `self.consumed_parts`. -/
def add_consumed_part (sel : InvRow) (consumed : List ConsumedPart) (qty_used : ℚ) :
    Except AddError (List ConsumedPart) :=
  if qty_used ≤ 0 then .error .QtyNotPositive
  else if sel.quantity_in_stock ≤ 0 then .error (.OutOfStock sel.quantity_in_stock)
  else if sel.quantity_in_stock < qty_used then
    .error (.InsufficientStock qty_used sel.quantity_in_stock)
  else if consumed.any (fun p => p.part_number = sel.part_number) then .error .DuplicatePart
  else .ok (consumed ++ [⟨sel.part_number, sel.name, qty_used⟩])

/-- One iteration of the `save_and_close` loop body, acting on the transaction
view `tx`: read `unit_price` of the part (0.0 when the row is missing or the
price is null/0), insert the `mro_stock_transactions` Issue row with quantity
`-part.quantity`, insert the `cm_parts_used` row, and run the `UPDATE` that
decrements `quantity_in_stock` of every row whose `part_number` matches. -/
def process_item (cm_number technician_name : String) (tx : DB) (part : ConsumedPart) : DB :=
  let unit_price : ℚ :=
    match tx.mro_inventory.find? (fun r => r.part_number = part.part_number) with
    | some r => r.unit_price
    | none => 0
  let total_cost := unit_price * part.quantity
  { mro_inventory :=
      tx.mro_inventory.map (fun r =>
        if r.part_number = part.part_number then
          { r with quantity_in_stock := r.quantity_in_stock - part.quantity }
        else r)
    mro_stock_transactions :=
      tx.mro_stock_transactions ++
        [⟨part.part_number, "Issue", -part.quantity, technician_name,
          "CM Work Order: " ++ cm_number⟩]
    cm_parts_used :=
      tx.cm_parts_used ++
        [⟨cm_number, part.part_number, part.quantity, total_cost, technician_name,
          "Parts consumed during CM " ++ cm_number⟩] }

/-- The `save_and_close` loop with the failure oracle: processing item `idx`
raises iff `failAt = some idx`; an uncaught raise aborts the loop. -/
def run_items (cm_number technician_name : String) (tx : DB) (items : List ConsumedPart)
    (failAt : Option Nat) (idx : Nat) : Except Unit DB :=
  match items with
  | [] => .ok tx
  | part :: rest =>
    if failAt = some idx then .error ()
    else run_items cm_number technician_name (process_item cm_number technician_name tx part)
      rest failAt (idx + 1)

/-- Outcome of `save_and_close`: the committed database afterwards and the
boolean handed to the dialog's completion callback. -/
structure SaveOutcome where
  db : DB
  ok : Bool
deriving Repr, DecidableEq

/-- `save_and_close`: with an empty pending list the dialog (after the user
confirms) writes nothing and calls `callback(True)`.  Otherwise each pending
part is processed inside the open transaction; `conn.commit()` (which raises
iff `failAt = some items.length`) publishes the transaction view, and any
exception lands in the handler that calls `conn.rollback()` — discarding every
buffered write — and then `callback(False)`. -/
def save_and_close (db : DB) (consumed : List ConsumedPart) (failAt : Option Nat)
    (cm_number technician_name : String) : SaveOutcome :=
  if consumed.isEmpty then ⟨db, true⟩
  else
    match run_items cm_number technician_name db consumed failAt 0 with
    | .error _ => ⟨db, false⟩
    | .ok tx => if failAt = some consumed.length then ⟨db, false⟩ else ⟨tx, true⟩

/-- A user session at the dialog: a sequence of attempted
`add_consumed_part` clicks (selected part number, entered quantity); a failed
add shows a message box and leaves the pending list unchanged.  Selecting is
possible only for rows displayed from the loaded snapshot. -/
def run_adds (snapshot : List InvRow) : List (String × ℚ) → List ConsumedPart →
    List ConsumedPart
  | [], consumed => consumed
  | (pn, q) :: rest, consumed =>
    match snapshot.find? (fun r => r.part_number = pn) with
    | none => run_adds snapshot rest consumed
    | some sel =>
      match add_consumed_part sel consumed q with
      | .ok consumed2 => run_adds snapshot rest consumed2
      | .error _ => run_adds snapshot rest consumed

/-- One dialog session: the snapshot is loaded from the current database at
dialog-open time, parts are added against that snapshot, and the pending list
is saved. -/
structure SessionReq where
  adds : List (String × ℚ)
  failAt : Option Nat
  cm_number : String
  technician_name : String

/-- Run one complete dialog session against the committed database: the
snapshot is loaded at dialog open, parts are added against it, then the
pending list is saved. -/
def run_session (db : DB) (req : SessionReq) : SaveOutcome :=
  save_and_close db (run_adds (load_parts_data db) req.adds []) req.failAt
    req.cm_number req.technician_name

/-- A sequence of dialog sessions, each loading its snapshot from the
database state left by the previous one. -/
def run_sessions : DB → List SessionReq → DB
  | db, [] => db
  | db, req :: rest => run_sessions (run_session db req).db rest

/-- All inventory quantities are non-negative. -/
def invNonneg (db : DB) : Prop :=
  ∀ r ∈ db.mro_inventory, 0 ≤ r.quantity_in_stock

/-- `part_number` is a key of `mro_inventory`. -/
def invKeysNodup (db : DB) : Prop :=
  (db.mro_inventory.map (fun r => r.part_number)).Nodup

instance (db : DB) : Decidable (invNonneg db) := by
  unfold invNonneg; infer_instance

instance (db : DB) : Decidable (invKeysNodup db) := by
  unfold invKeysNodup; infer_instance

/-- Signed ledger sum of all `mro_stock_transactions` rows for a part. -/
def txSum (txs : List StockTransaction) (pn : String) : ℚ :=
  ((txs.filter (fun t => t.part_number = pn)).map (fun t => t.quantity)).sum

/-- Total pending quantity for a part in a consumed-parts list. -/
def qtySum (consumed : List ConsumedPart) (pn : String) : ℚ :=
  ((consumed.filter (fun p => p.part_number = pn)).map (fun p => p.quantity)).sum

/-- Ledger/inventory consistency: every inventory row's quantity equals its
initial quantity plus the signed sum of its ledger movements. -/
def ledgerConsistent (init : String → ℚ) (db : DB) : Prop :=
  ∀ r ∈ db.mro_inventory,
    r.quantity_in_stock = init r.part_number + txSum db.mro_stock_transactions r.part_number

example :
    add_consumed_part ⟨"BRG-100", "Bearing", "A1", 10, 4, "Active"⟩ [] 3 =
      .ok [⟨"BRG-100", "Bearing", 3⟩] := by rfl

example :
    add_consumed_part ⟨"BRG-100", "Bearing", "A1", 10, 4, "Active"⟩ [] 15 =
      .error (.InsufficientStock 15 10) := by rfl

/-- The ledger row inserted for one consumed part (notes reference the CM). -/
def issueRow (cm_number technician_name : String) (p : ConsumedPart) : StockTransaction :=
  ⟨p.part_number, "Issue", -p.quantity, technician_name, "CM Work Order: " ++ cm_number⟩

/-- The `save_and_close` loop without failures (what a fully successful
transaction applies to the database). -/
def apply_items (cm_number technician_name : String) : DB → List ConsumedPart → DB
  | tx, [] => tx
  | tx, p :: rest => apply_items cm_number technician_name
      (process_item cm_number technician_name tx p) rest

theorem process_item_transactions (cm tech : String) (tx : DB) (p : ConsumedPart) :
    (process_item cm tech tx p).mro_stock_transactions =
      tx.mro_stock_transactions ++ [issueRow cm tech p] := rfl

theorem run_items_error (cm tech : String) (items : List ConsumedPart) (tx : DB)
    (idx k : Nat) (h1 : idx ≤ k) (h2 : k < idx + items.length) :
    run_items cm tech tx items (some k) idx = .error () := by
  induction items generalizing tx idx with
  | nil => simp at h2; omega
  | cons p rest ih =>
    rw [run_items]
    by_cases hk : k = idx
    · simp [hk]
    · rw [if_neg (by simpa using Ne.symm (by omega : idx ≠ k))]
      exact ih _ _ (by omega) (by simp at h2 ⊢; omega)

theorem run_items_ok (cm tech : String) (items : List ConsumedPart) (tx : DB)
    (idx : Nat) (failAt : Option Nat) (h : ∀ k, failAt = some k → idx + items.length ≤ k) :
    run_items cm tech tx items failAt idx = .ok (apply_items cm tech tx items) := by
  induction items generalizing tx idx with
  | nil => rfl
  | cons p rest ih =>
    rw [run_items, apply_items]
    rw [if_neg]
    · exact ih _ _ (fun k hk => by
        have := h k hk; simp only [List.length_cons] at this ⊢; omega)
    · intro hc
      have := h _ hc
      simp only [List.length_cons] at this
      omega

theorem run_items_ok_eq (cm tech : String) (items : List ConsumedPart) (tx d : DB)
    (idx : Nat) (failAt : Option Nat)
    (h : run_items cm tech tx items failAt idx = .ok d) :
    d = apply_items cm tech tx items := by
  induction items generalizing tx idx with
  | nil => rw [run_items] at h; cases h; rfl
  | cons p rest ih =>
    rw [run_items] at h
    split at h
    · cases h
    · exact ih _ _ h

theorem qtySum_cons (p : ConsumedPart) (l : List ConsumedPart) (pn : String) :
    qtySum (p :: l) pn = (if p.part_number = pn then p.quantity else 0) + qtySum l pn := by
  by_cases h : p.part_number = pn <;> simp [qtySum, List.filter_cons, h]

theorem txSum_cons (t : StockTransaction) (l : List StockTransaction) (pn : String) :
    txSum (t :: l) pn = (if t.part_number = pn then t.quantity else 0) + txSum l pn := by
  by_cases h : t.part_number = pn <;> simp [txSum, List.filter_cons, h]

theorem txSum_append (a b : List StockTransaction) (pn : String) :
    txSum (a ++ b) pn = txSum a pn + txSum b pn := by
  simp [txSum, List.filter_append]

theorem txSum_issueRows (cm tech : String) (items : List ConsumedPart) (pn : String) :
    txSum (items.map (issueRow cm tech)) pn = -(qtySum items pn) := by
  induction items with
  | nil => simp [txSum, qtySum]
  | cons p rest ih =>
    rw [List.map_cons, txSum_cons, qtySum_cons, ih, issueRow]
    by_cases h : p.part_number = pn
    · simp [h]; ring
    · simp [h]

theorem apply_items_inventory (cm tech : String) (tx : DB) (items : List ConsumedPart) :
    (apply_items cm tech tx items).mro_inventory =
      tx.mro_inventory.map (fun r =>
        { r with quantity_in_stock := r.quantity_in_stock - qtySum items r.part_number }) := by
  induction items generalizing tx with
  | nil =>
    rw [apply_items]
    conv_lhs => rw [← List.map_id tx.mro_inventory]
    apply List.map_congr_left
    intro r _
    simp [qtySum]
  | cons p rest ih =>
    rw [apply_items, ih, process_item]
    rw [List.map_map]
    apply List.map_congr_left
    intro r _
    simp only [Function.comp]
    by_cases h : r.part_number = p.part_number
    · rw [if_pos h, qtySum_cons, if_pos h.symm]
      simp [sub_sub]
    · rw [if_neg h, qtySum_cons, if_neg (fun hc => h hc.symm)]
      simp

theorem apply_items_transactions (cm tech : String) (tx : DB) (items : List ConsumedPart) :
    (apply_items cm tech tx items).mro_stock_transactions =
      tx.mro_stock_transactions ++ items.map (issueRow cm tech) := by
  induction items generalizing tx with
  | nil => simp [apply_items]
  | cons p rest ih =>
    rw [apply_items, ih, process_item_transactions, List.map_cons, List.append_assoc]
    rfl

/-- Invariant of the pending `consumed_parts` list relative to the loaded
snapshot: no part number appears twice, and every entry has positive quantity
covered by the snapshot row of its part. -/
def goodConsumed (snapshot : List InvRow) (consumed : List ConsumedPart) : Prop :=
  (consumed.map (fun p => p.part_number)).Nodup ∧
  ∀ p ∈ consumed, 0 < p.quantity ∧
    ∃ sel ∈ snapshot, sel.part_number = p.part_number ∧ p.quantity ≤ sel.quantity_in_stock

theorem add_consumed_part_ok (sel : InvRow) (consumed : List ConsumedPart) (q : ℚ)
    (out : List ConsumedPart) (h : add_consumed_part sel consumed q = .ok out) :
    out = consumed ++ [⟨sel.part_number, sel.name, q⟩] ∧ 0 < q ∧
      q ≤ sel.quantity_in_stock ∧
      ∀ p ∈ consumed, p.part_number ≠ sel.part_number := by
  unfold add_consumed_part at h
  split_ifs at h with h1 h2 h3 h4
  all_goals try cases h
  simp only [List.any_eq_true, decide_eq_true_eq, not_exists, not_and] at h4
  exact ⟨rfl, by linarith [not_le.mp h1], le_of_not_lt h3, h4⟩

theorem goodConsumed_run_adds (snapshot : List InvRow) (adds : List (String × ℚ))
    (consumed : List ConsumedPart) (h : goodConsumed snapshot consumed) :
    goodConsumed snapshot (run_adds snapshot adds consumed) := by
  induction adds generalizing consumed with
  | nil => exact h
  | cons aq rest ih =>
    obtain ⟨pn, q⟩ := aq
    cases hf : snapshot.find? (fun r => r.part_number = pn) with
    | none =>
      simp only [run_adds, hf]
      exact ih consumed h
    | some sel =>
      cases ha : add_consumed_part sel consumed q with
      | error e =>
        simp only [run_adds, hf, ha]
        exact ih consumed h
      | ok out =>
        simp only [run_adds, hf, ha]
        apply ih
        obtain ⟨hout, hq, hle, hnodup⟩ := add_consumed_part_ok sel consumed q out ha
        have hsel : sel ∈ snapshot := List.mem_of_find?_eq_some hf
        subst hout
        constructor
        · rw [List.map_append, List.nodup_append]
          refine ⟨h.1, by simp, ?_⟩
          intro a ha1 ha2
          simp only [List.map_cons, List.map_nil, List.mem_singleton] at ha2
          obtain ⟨p, hp, rfl⟩ := List.mem_map.mp ha1
          exact hnodup p hp ha2
        · intro p hp
          rcases List.mem_append.mp hp with hp | hp
          · exact h.2 p hp
          · simp only [List.mem_singleton] at hp
            subst hp
            exact ⟨hq, sel, hsel, rfl, hle⟩

theorem qtySum_eq_zero (consumed : List ConsumedPart) (pn : String)
    (h : ∀ p ∈ consumed, p.part_number ≠ pn) : qtySum consumed pn = 0 := by
  induction consumed with
  | nil => simp [qtySum]
  | cons p rest ih =>
    rw [qtySum_cons, if_neg (h p (by simp)), ih (fun r hr => h r (by simp [hr])), zero_add]

theorem qtySum_of_nodup_mem (consumed : List ConsumedPart) (p : ConsumedPart)
    (hnd : (consumed.map (fun p => p.part_number)).Nodup) (hp : p ∈ consumed) :
    qtySum consumed p.part_number = p.quantity := by
  induction consumed with
  | nil => cases hp
  | cons q rest ih =>
    rw [List.map_cons, List.nodup_cons] at hnd
    rcases List.mem_cons.mp hp with rfl | hp2
    · rw [qtySum_cons, if_pos rfl, qtySum_eq_zero rest _ ?_, add_zero]
      intro r hr hc
      exact hnd.1 (by rw [← hc]; exact List.mem_map_of_mem _ hr)
    · rw [qtySum_cons, ih hnd.2 hp2, if_neg ?_, zero_add]
      intro hc
      exact hnd.1 (by rw [hc]; exact List.mem_map_of_mem _ hp2)

theorem apply_items_nonneg (db : DB) (cm tech : String) (consumed : List ConsumedPart)
    (hnn : invNonneg db) (hkeys : invKeysNodup db)
    (hg : goodConsumed (load_parts_data db) consumed) :
    invNonneg (apply_items cm tech db consumed) := by
  intro r' hr'
  rw [apply_items_inventory] at hr'
  obtain ⟨r, hr, rfl⟩ := List.mem_map.mp hr'
  show 0 ≤ r.quantity_in_stock - qtySum consumed r.part_number
  by_cases hex : ∃ p ∈ consumed, p.part_number = r.part_number
  · obtain ⟨p, hp, hpn⟩ := hex
    have hq : qtySum consumed r.part_number = p.quantity := by
      rw [← hpn]; exact qtySum_of_nodup_mem consumed p hg.1 hp
    rw [hq]
    obtain ⟨hpq, sel, hsel, hselpn, hle⟩ := hg.2 p hp
    have hsel2 : sel ∈ db.mro_inventory := List.mem_of_mem_filter hsel
    have heq : sel = r :=
      List.inj_on_of_nodup_map hkeys hsel2 hr (by rw [hselpn, hpn])
    rw [← heq]
    linarith
  · push_neg at hex
    rw [qtySum_eq_zero consumed _ hex, sub_zero]
    exact hnn r hr

theorem apply_items_keys (db : DB) (cm tech : String) (consumed : List ConsumedPart) :
    (apply_items cm tech db consumed).mro_inventory.map (fun r => r.part_number) =
      db.mro_inventory.map (fun r => r.part_number) := by
  rw [apply_items_inventory, List.map_map]
  rfl

theorem apply_items_ledger (init : String → ℚ) (db : DB) (cm tech : String)
    (consumed : List ConsumedPart) (h : ledgerConsistent init db) :
    ledgerConsistent init (apply_items cm tech db consumed) := by
  intro r' hr'
  rw [apply_items_inventory] at hr'
  obtain ⟨r, hr, rfl⟩ := List.mem_map.mp hr'
  show r.quantity_in_stock - qtySum consumed r.part_number =
    init r.part_number + txSum (apply_items cm tech db consumed).mro_stock_transactions r.part_number
  rw [apply_items_transactions, txSum_append, txSum_issueRows]
  have hcons := h r hr
  linarith

instance (init : String → ℚ) (db : DB) : Decidable (ledgerConsistent init db) := by
  unfold ledgerConsistent; infer_instance

theorem run_session_cases (db : DB) (req : SessionReq) :
    (run_session db req).db = db ∨
    (run_session db req).db =
      apply_items req.cm_number req.technician_name db
        (run_adds (load_parts_data db) req.adds []) := by
  unfold run_session save_and_close
  split
  · exact Or.inl rfl
  · split
    · exact Or.inl rfl
    · next tx heq =>
      split
      · exact Or.inl rfl
      · exact Or.inr (run_items_ok_eq _ _ _ _ _ _ _ heq)

theorem run_session_preserves (db : DB) (req : SessionReq)
    (hnn : invNonneg db) (hkeys : invKeysNodup db) :
    invNonneg (run_session db req).db ∧ invKeysNodup (run_session db req).db := by
  rcases run_session_cases db req with h | h
  · rw [h]; exact ⟨hnn, hkeys⟩
  · rw [h]
    have hg := goodConsumed_run_adds (load_parts_data db) req.adds [] ⟨by simp, by simp⟩
    refine ⟨apply_items_nonneg db _ _ _ hnn hkeys hg, ?_⟩
    unfold invKeysNodup
    rw [apply_items_keys]
    exact hkeys

theorem run_sessions_preserves (db : DB) (reqs : List SessionReq)
    (hnn : invNonneg db) (hkeys : invKeysNodup db) :
    invNonneg (run_sessions db reqs) ∧ invKeysNodup (run_sessions db reqs) := by
  induction reqs generalizing db with
  | nil => exact ⟨hnn, hkeys⟩
  | cons r rest ih =>
    rw [run_sessions]
    have h := run_session_preserves db r hnn hkeys
    exact ih _ h.1 h.2

theorem run_session_ledger (init : String → ℚ) (db : DB) (req : SessionReq)
    (h : ledgerConsistent init db) : ledgerConsistent init (run_session db req).db := by
  rcases run_session_cases db req with hc | hc
  · rw [hc]; exact h
  · rw [hc]; exact apply_items_ledger init db _ _ _ h

theorem run_sessions_ledger (init : String → ℚ) (db : DB) (reqs : List SessionReq)
    (h : ledgerConsistent init db) : ledgerConsistent init (run_sessions db reqs) := by
  induction reqs generalizing db with
  | nil => exact h
  | cons r rest ih =>
    rw [run_sessions]
    exact ih _ (run_session_ledger init db r h)

/-- Example inventory of §8 Scenario A: BRG-100 with 10 in stock. -/
def dbEx : DB :=
  ⟨[⟨"BRG-100", "Bearing", "A1", 10, 4, "Active"⟩], [], []⟩

/-- Example dialog session: consume 3 of BRG-100 for CM-001, no storage failure. -/
def reqEx : SessionReq := ⟨[("BRG-100", 3)], none, "CM-001", "J.Smith"⟩

/-- C1: over any sequence of dialog sessions (each `save_and_close` of parts
added against the session's loaded snapshot), `quantity_in_stock` stays
non-negative; and an `add_consumed_part` attempt requesting more than the
available quantity fails with `OutOfStock` (quantity ≤ 0) or
`InsufficientStock` (reporting requested and available), leaving the pending
list — and the untouched database — unchanged. -/
theorem nonneg_stock_C1 (db : DB) (reqs : List SessionReq)
    (hnn : invNonneg db) (hkeys : invKeysNodup db) :
    invNonneg (run_sessions db reqs) ∧
    (∀ sel ∈ load_parts_data db, ∀ (consumed : List ConsumedPart) (q : ℚ),
      sel.quantity_in_stock < q →
      ∃ e, add_consumed_part sel consumed q = .error e ∧
        (e = .OutOfStock sel.quantity_in_stock ∨
         e = .InsufficientStock q sel.quantity_in_stock)) := by
  refine ⟨(run_sessions_preserves db reqs hnn hkeys).1, ?_⟩
  intro sel hsel consumed q hq
  have h0 : 0 ≤ sel.quantity_in_stock := hnn sel (List.mem_of_mem_filter hsel)
  unfold add_consumed_part
  rw [if_neg (by linarith : ¬ q ≤ 0)]
  by_cases hz : sel.quantity_in_stock ≤ 0
  · rw [if_pos hz]
    exact ⟨_, rfl, Or.inl rfl⟩
  · rw [if_neg hz, if_pos hq]
    exact ⟨_, rfl, Or.inr rfl⟩

theorem nonneg_stock_C1_witness : invNonneg (run_sessions dbEx [reqEx]) :=
  (nonneg_stock_C1 dbEx [reqEx] (by decide) (by decide)).1

/-- C2: atomicity of `save_and_close`.  If any storage operation of any item
(or the final commit) raises, the exception handler rolls the transaction
back before reporting: the committed database is unchanged — zero
`mro_stock_transactions` rows, zero `cm_parts_used` rows, every inventory row
untouched — and the callback receives `False`. -/
theorem save_atomic_C2 (db : DB) (consumed : List ConsumedPart) (k : Nat)
    (cm tech : String) (hne : consumed ≠ []) (hk : k ≤ consumed.length) :
    save_and_close db consumed (some k) cm tech = ⟨db, false⟩ ∧
    (save_and_close db consumed (some k) cm tech).db.mro_stock_transactions =
      db.mro_stock_transactions ∧
    (save_and_close db consumed (some k) cm tech).db.cm_parts_used = db.cm_parts_used ∧
    ∀ r ∈ db.mro_inventory,
      r ∈ (save_and_close db consumed (some k) cm tech).db.mro_inventory := by
  have hmain : save_and_close db consumed (some k) cm tech = ⟨db, false⟩ := by
    unfold save_and_close
    rw [if_neg (fun hc => hne (List.isEmpty_iff.mp hc))]
    rcases Nat.lt_or_ge k consumed.length with hlt | hge
    · rw [run_items_error cm tech consumed db 0 k (Nat.zero_le k) (by omega)]
    · have hk' : k = consumed.length := by omega
      rw [run_items_ok cm tech consumed db 0 (some k)
        (fun j hj => by cases hj; omega)]
      show (if some k = some consumed.length then (⟨db, false⟩ : SaveOutcome)
        else ⟨apply_items cm tech db consumed, true⟩) = ⟨db, false⟩
      rw [if_pos (by rw [hk'] : some k = some consumed.length)]
  refine ⟨hmain, by rw [hmain], by rw [hmain], ?_⟩
  intro r hr
  rw [hmain]
  exact hr

theorem save_atomic_C2_witness :
    save_and_close dbEx [⟨"BRG-100", "Bearing", 3⟩] (some 0) "CM-001" "J.Smith" =
      ⟨dbEx, false⟩ :=
  (save_atomic_C2 dbEx [⟨"BRG-100", "Bearing", 3⟩] 0 "CM-001" "J.Smith"
    (by simp) (by simp)).1

/-- C3: ledger/inventory consistency.  If every inventory row's quantity
equals its initial quantity plus the signed sum of its ledger movements, this
still holds after any sequence of dialog sessions; and a fault-free
`save_and_close` appends exactly one Issue movement of quantity `-requested`
per consumed part in the same transaction that decrements the inventory row
by `requested`. -/
theorem ledger_consistency_C3 (init : String → ℚ) (db : DB) (reqs : List SessionReq)
    (h : ledgerConsistent init db) :
    ledgerConsistent init (run_sessions db reqs) ∧
    ∀ (consumed : List ConsumedPart) (cm tech : String),
      (save_and_close db consumed none cm tech).db.mro_stock_transactions =
        db.mro_stock_transactions ++ consumed.map (issueRow cm tech) := by
  refine ⟨run_sessions_ledger init db reqs h, ?_⟩
  intro consumed cm tech
  unfold save_and_close
  by_cases he : consumed.isEmpty = true
  · rw [if_pos he]
    have hc : consumed = [] := List.isEmpty_iff.mp he
    simp [hc]
  · rw [if_neg he]
    rw [run_items_ok cm tech consumed db 0 none (fun j hj => by cases hj)]
    show (if (none : Option Nat) = some consumed.length then (⟨db, false⟩ : SaveOutcome)
      else ⟨apply_items cm tech db consumed, true⟩).db.mro_stock_transactions =
      db.mro_stock_transactions ++ consumed.map (issueRow cm tech)
    rw [if_neg (by simp)]
    exact apply_items_transactions cm tech db consumed

theorem ledger_consistency_C3_witness :
    ledgerConsistent (fun pn => if pn = "BRG-100" then 10 else 0)
      (run_sessions dbEx [reqEx]) :=
  (ledger_consistency_C3 (fun pn => if pn = "BRG-100" then 10 else 0) dbEx [reqEx]
    (by
      intro r hr
      rw [show dbEx.mro_inventory = [⟨"BRG-100", "Bearing", "A1", 10, 4, "Active"⟩] from rfl,
        List.mem_singleton] at hr
      subst hr
      show (10 : ℚ) = (if ("BRG-100" : String) = "BRG-100" then (10 : ℚ) else 0) +
        txSum dbEx.mro_stock_transactions "BRG-100"
      rw [if_pos rfl]
      simp [txSum, dbEx])).1

/-- The same inventory after an external writer (another dialog or a receipt
path) has reduced BRG-100 to 0 between dialog open and save. -/
def dbDrained : DB :=
  ⟨[⟨"BRG-100", "Bearing", "A1", 0, 4, "Active"⟩], [], []⟩

/-- C4 counterexample: the preconditions are NOT re-checked against a fresh
read at recording time.  A part is added against the snapshot loaded when the
dialog opened (`dbEx`, 10 in stock); before saving, the stored state has
changed to `dbDrained` (0 in stock).  `save_and_close` still succeeds and
drives `quantity_in_stock` to −5, so no check against the current stored
state happened at recording time. -/
theorem fresh_read_counterexample_C4 :
    run_adds (load_parts_data dbEx) [("BRG-100", 5)] [] =
      [⟨"BRG-100", "Bearing", 5⟩] ∧
    (save_and_close dbDrained [⟨"BRG-100", "Bearing", 5⟩] none "CM-001" "J.Smith").ok
      = true ∧
    ∀ r ∈ (save_and_close dbDrained [⟨"BRG-100", "Bearing", 5⟩] none
        "CM-001" "J.Smith").db.mro_inventory,
      r.quantity_in_stock = -5 := by
  refine ⟨rfl, rfl, ?_⟩
  intro r hr
  rw [show (save_and_close dbDrained [⟨"BRG-100", "Bearing", 5⟩] none
      "CM-001" "J.Smith").db.mro_inventory =
      [⟨"BRG-100", "Bearing", "A1", (0 : ℚ) - 5, 4, "Active"⟩] from rfl,
    List.mem_singleton] at hr
  rw [hr]
  show (0 : ℚ) - 5 = -5
  norm_num

/-- C4 amended: the per-item preconditions (`OutOfStock` when the available
quantity is ≤ 0, `InsufficientStock` reporting requested and available) are
checked by `add_consumed_part` against the snapshot row loaded by
`load_parts_data` at dialog-open time, and `save_and_close` performs no
re-validation of stock against the current stored state: absent a storage
fault it succeeds whatever the current quantities are. -/
theorem snapshot_checks_C4 (db : DB) (sel : InvRow) (consumed : List ConsumedPart)
    (q : ℚ) (cm tech : String) (h0 : 0 < q) :
    (sel.quantity_in_stock ≤ 0 →
      add_consumed_part sel consumed q = .error (.OutOfStock sel.quantity_in_stock)) ∧
    ((0 < sel.quantity_in_stock ∧ sel.quantity_in_stock < q) →
      add_consumed_part sel consumed q =
        .error (.InsufficientStock q sel.quantity_in_stock)) ∧
    (save_and_close db consumed none cm tech).ok = true := by
  refine ⟨?_, ?_, ?_⟩
  · intro hz
    unfold add_consumed_part
    rw [if_neg (by linarith), if_pos hz]
  · rintro ⟨hpos, hlt⟩
    unfold add_consumed_part
    rw [if_neg (by linarith), if_neg (by linarith), if_pos hlt]
  · unfold save_and_close
    by_cases he : consumed.isEmpty = true
    · rw [if_pos he]
    · rw [if_neg he,
        run_items_ok cm tech consumed db 0 none (fun j hj => by cases hj)]
      show (if (none : Option Nat) = some consumed.length then (⟨db, false⟩ : SaveOutcome)
        else ⟨apply_items cm tech db consumed, true⟩).ok = true
      rw [if_neg (by simp)]

theorem snapshot_checks_C4_witness :
    add_consumed_part ⟨"BRG-100", "Bearing", "A1", 0, 4, "Active"⟩ [] 5 =
      .error (.OutOfStock 0) :=
  (snapshot_checks_C4 dbEx ⟨"BRG-100", "Bearing", "A1", 0, 4, "Active"⟩ [] 5
    "CM-001" "J.Smith" (by norm_num)).1 (by norm_num)

/-- C5: a batch can never contain the same part twice.  Attempting to add a
part whose part_number is already pending is rejected (with the duplicate
error whenever the quantity/stock checks pass); `add_consumed_part` performs
no storage access at all (it does not even receive the database), and the
pending list built by any sequence of add attempts has pairwise-distinct part
numbers. -/
theorem duplicate_reject_C5 (snapshot : List InvRow) (adds : List (String × ℚ))
    (sel : InvRow) (consumed : List ConsumedPart) (q : ℚ)
    (hdup : sel.part_number ∈ consumed.map (fun p => p.part_number)) :
    (∃ e, add_consumed_part sel consumed q = .error e) ∧
    ((0 < q ∧ 0 < sel.quantity_in_stock ∧ q ≤ sel.quantity_in_stock) →
      add_consumed_part sel consumed q = .error .DuplicatePart) ∧
    ((run_adds snapshot adds []).map (fun p => p.part_number)).Nodup := by
  have hany : consumed.any (fun p => p.part_number = sel.part_number) = true := by
    rw [List.any_eq_true]
    obtain ⟨p, hp, hpn⟩ := List.mem_map.mp hdup
    exact ⟨p, hp, by simp [hpn]⟩
  refine ⟨?_, ?_, ?_⟩
  · unfold add_consumed_part
    split_ifs with h1 h2 h3
    · exact ⟨_, rfl⟩
    · exact ⟨_, rfl⟩
    · exact ⟨_, rfl⟩
    · exact ⟨_, rfl⟩
  · rintro ⟨hq, hpos, hle⟩
    unfold add_consumed_part
    rw [if_neg (by linarith), if_neg (by linarith), if_neg (by linarith), if_pos hany]
  · exact (goodConsumed_run_adds snapshot adds [] ⟨by simp, by simp⟩).1

theorem duplicate_reject_C5_witness :
    add_consumed_part ⟨"BRG-100", "Bearing", "A1", 10, 4, "Active"⟩
      [⟨"BRG-100", "Bearing", 3⟩] 2 = .error .DuplicatePart :=
  (duplicate_reject_C5 (load_parts_data dbEx) [("BRG-100", 3)]
    ⟨"BRG-100", "Bearing", "A1", 10, 4, "Active"⟩ [⟨"BRG-100", "Bearing", 3⟩] 2
    (by simp)).2.1 (by norm_num)

/-- C6: saving with an empty pending list is a success no-op: the database is
fully unchanged (no movement rows, no usage rows, no inventory update), no
error is raised, and the completion callback receives `True` — regardless of
any would-be storage fault, since no storage operation runs. -/
theorem empty_batch_noop_C6 (db : DB) (failAt : Option Nat) (cm tech : String) :
    save_and_close db [] failAt cm tech = ⟨db, true⟩ := rfl

/-- A row of the `equipment` table as read by `get_equipment_health_score`:
`SELECT status, monthly_pm, annual_pm FROM equipment WHERE bfm_equipment_no = %s`. -/
structure EquipRow where
  status : String
  monthly_pm : String
  annual_pm : String
deriving Repr, DecidableEq

/-- The query results `get_equipment_health_score` reads for one equipment
over its fixed 12-month window: the equipment row (`none` when the bfm
number is unknown), the `pm_completions` count, the `corrective_maintenance`
count, the two `COALESCE(SUM(labor_hours), 0)` sums, and the
`cm_parts_requests` count. -/
structure HealthInput where
  equip : Option EquipRow
  completed_pms : Nat
  cm_count : Nat
  pm_hours : ℚ
  cm_hours : ℚ
  parts_requests : Nat
deriving Repr, DecidableEq

/-- The metrics dictionary returned by `get_equipment_health_score`.
`parts_count` is `none` when the key was never added (unknown equipment
returns the initial dictionary, which has no `parts_count` key). -/
structure HealthMetrics where
  health_score : ℤ
  pm_compliance : ℤ
  cm_frequency : ℚ
  downtime_days : ℚ
  parts_cost : ℚ
  labor_hours : ℚ
  status : String
  recommendations : List String
  parts_count : Option Nat
deriving Repr, DecidableEq

/-- The initial `metrics` dictionary of `get_equipment_health_score`,
returned unchanged when the equipment row does not exist. -/
def defaultHealthMetrics : HealthMetrics :=
  ⟨0, 0, 0, 0, 0, 0, "Unknown", [], none⟩

/-- Python `int()` on the exact value: truncation toward zero. -/
def pyInt (q : ℚ) : ℤ := if 0 ≤ q then ⌊q⌋ else ⌈q⌉

/-- Python `round` to the nearest integer, ties to even (on the exact value). -/
def roundHalfEven (q : ℚ) : ℤ :=
  if q - ⌊q⌋ < 1 / 2 then ⌊q⌋
  else if 1 / 2 < q - ⌊q⌋ then ⌊q⌋ + 1
  else if ⌊q⌋ % 2 = 0 then ⌊q⌋ else ⌊q⌋ + 1

/-- Python `round(x, 1)`. -/
def round1 (q : ℚ) : ℚ := (roundHalfEven (q * 10) : ℚ) / 10

/-- Expected PM count: +12 when monthly PM is flagged with `'X'`, +1 when
annual PM is flagged. -/
def expected_pms_of (e : EquipRow) : Nat :=
  (if e.monthly_pm = "X" then 12 else 0) + (if e.annual_pm = "X" then 1 else 0)

/-- `metrics['pm_compliance']`: `min(100, int((completed_pms / expected_pms)
* 100))` when `expected_pms > 0`, otherwise the initial 0. -/
def pm_compliance_of (expected completed : Nat) : ℤ :=
  if 0 < expected then min 100 (pyInt ((completed : ℚ) / (expected : ℚ) * 100)) else 0

/-- The health-score arithmetic of `get_equipment_health_score`: start at
100; subtract `(100 - pm_compliance) * 0.3`; if `cm_frequency > 1` subtract
`min(20, (cm_frequency - 1) * 10)`; if status is not Active subtract 30.
(Each conditional `score -= d` is written as subtracting `d` or 0.) -/
def health_score_raw (status : String) (pm_compliance : ℤ) (cm_frequency : ℚ) : ℚ :=
  100 - (100 - (pm_compliance : ℚ)) * (3 / 10)
    - (if 1 < cm_frequency then min 20 ((cm_frequency - 1) * 10) else 0)
    - (if status ≠ "Active" then 30 else 0)

/-- The branch of `get_equipment_health_score` for an existing equipment row:
compliance, frequency, labor hours, parts count, the score
`max(0, int(score))`, and the four ordered recommendation triggers. -/
def health_metrics_for (e : EquipRow) (completed_pms cm_count : Nat)
    (pm_hours cm_hours : ℚ) (parts_requests : Nat) : HealthMetrics :=
  let pm_compliance := pm_compliance_of (expected_pms_of e) completed_pms
  let cm_frequency := round1 ((cm_count : ℚ) / 12)
  { health_score := max 0 (pyInt (health_score_raw e.status pm_compliance cm_frequency))
    pm_compliance := pm_compliance
    cm_frequency := cm_frequency
    downtime_days := 0
    parts_cost := 0
    labor_hours := pm_hours + cm_hours
    status := e.status
    recommendations :=
      (if pm_compliance < 80 then ["Improve PM compliance - currently below 80%"] else []) ++
      (if 2 < cm_frequency then ["High CM frequency - investigate root causes"] else []) ++
      (if 20 < parts_requests then ["High parts usage - review equipment reliability"] else []) ++
      (if e.status ≠ "Active" then
        ["Equipment status is \x27" ++ e.status ++ "\x27 - review and update"] else [])
    parts_count := some parts_requests }

/-- `get_equipment_health_score` as a function of its query results. -/
def get_equipment_health_score (inp : HealthInput) : HealthMetrics :=
  match inp.equip with
  | none => defaultHealthMetrics
  | some e =>
    health_metrics_for e inp.completed_pms inp.cm_count inp.pm_hours inp.cm_hours
      inp.parts_requests

theorem pm_compliance_nonneg (expected completed : Nat) :
    0 ≤ pm_compliance_of expected completed := by
  unfold pm_compliance_of
  split_ifs with h
  · refine le_min (by norm_num) ?_
    unfold pyInt
    have hx : (0 : ℚ) ≤ (completed : ℚ) / (expected : ℚ) * 100 := by positivity
    rw [if_pos hx]
    exact Int.le_floor.mpr (by exact_mod_cast hx)
  · exact le_refl 0

theorem pm_compliance_le (expected completed : Nat) :
    pm_compliance_of expected completed ≤ 100 := by
  unfold pm_compliance_of
  split_ifs with h
  · exact min_le_left _ _
  · norm_num

theorem health_score_raw_bounds (status : String) (pmc : ℤ) (cmf : ℚ)
    (h0 : 0 ≤ pmc) (h1 : pmc ≤ 100) :
    20 ≤ health_score_raw status pmc cmf ∧ health_score_raw status pmc cmf ≤ 100 := by
  unfold health_score_raw
  have hc0 : (0 : ℚ) ≤ (pmc : ℚ) := by exact_mod_cast h0
  have hc1 : (pmc : ℚ) ≤ 100 := by exact_mod_cast h1
  have hd2 : 0 ≤ (if 1 < cmf then min 20 ((cmf - 1) * 10) else 0) ∧
      (if 1 < cmf then min 20 ((cmf - 1) * 10) else 0) ≤ 20 := by
    split_ifs with h
    · refine ⟨le_min (by norm_num) ?_, min_le_left _ _⟩
      have hr : (cmf - 1) * 10 = 10 * cmf - 10 := by ring
      rw [hr]
      linarith
    · norm_num
  have hd3 : 0 ≤ (if status ≠ "Active" then (30 : ℚ) else 0) ∧
      (if status ≠ "Active" then (30 : ℚ) else 0) ≤ 30 := by
    split_ifs <;> norm_num
  exact ⟨by linarith [hd2.2, hd3.2], by linarith [hd2.1, hd3.1]⟩

theorem health_metrics_for_score (e : EquipRow) (c n : Nat) (ph ch : ℚ) (pr : Nat) :
    (health_metrics_for e c n ph ch pr).health_score =
      max 0 (pyInt (health_score_raw e.status (pm_compliance_of (expected_pms_of e) c)
        (round1 ((n : ℚ) / 12)))) := rfl

/-- C9: for every equipment identifier present in the `equipment` table, the
returned `health_score` is an integer in [20, 100]: compliance is capped to
[0, 100], so the three deductions are bounded by 30, 20 and 30, the raw score
stays in [20, 100], and `max(0, int(score))` never leaves that range. -/
theorem health_score_bounds_C9 (inp : HealthInput) (e : EquipRow)
    (h : inp.equip = some e) :
    20 ≤ (get_equipment_health_score inp).health_score ∧
    (get_equipment_health_score inp).health_score ≤ 100 := by
  have hg : get_equipment_health_score inp =
      health_metrics_for e inp.completed_pms inp.cm_count inp.pm_hours inp.cm_hours
        inp.parts_requests := by
    unfold get_equipment_health_score
    rw [h]
  rw [hg, health_metrics_for_score]
  have hb := health_score_raw_bounds e.status
    (pm_compliance_of (expected_pms_of e) inp.completed_pms)
    (round1 ((inp.cm_count : ℚ) / 12)) (pm_compliance_nonneg _ _) (pm_compliance_le _ _)
  have hpy : pyInt (health_score_raw e.status
      (pm_compliance_of (expected_pms_of e) inp.completed_pms)
      (round1 ((inp.cm_count : ℚ) / 12))) =
      ⌊health_score_raw e.status (pm_compliance_of (expected_pms_of e) inp.completed_pms)
        (round1 ((inp.cm_count : ℚ) / 12))⌋ := by
    unfold pyInt
    rw [if_pos (by linarith [hb.1])]
  rw [hpy]
  constructor
  · rw [le_max_iff]
    right
    exact Int.le_floor.mpr (by push_cast; linarith [hb.1])
  · rw [max_le_iff]
    refine ⟨by norm_num, ?_⟩
    have h2 : (⌊health_score_raw e.status
        (pm_compliance_of (expected_pms_of e) inp.completed_pms)
        (round1 ((inp.cm_count : ℚ) / 12))⌋ : ℚ) ≤ 100 :=
      le_trans (Int.floor_le _) hb.2
    exact_mod_cast h2

/-- Example health-score input: Active equipment with monthly PM, 9
completions, no corrective events. -/
def inpHealthEx : HealthInput := ⟨some ⟨"Active", "X", ""⟩, 9, 0, 0, 0, 0⟩

theorem health_score_bounds_C9_witness :
    20 ≤ (get_equipment_health_score inpHealthEx).health_score ∧
    (get_equipment_health_score inpHealthEx).health_score ≤ 100 :=
  health_score_bounds_C9 inpHealthEx ⟨"Active", "X", ""⟩ rfl

/-- C10: for an equipment identifier not present in the `equipment` table,
`get_equipment_health_score` raises no error and returns the initial metrics
dictionary (health_score 0, pm_compliance 0, cm_frequency 0, labor_hours 0,
status Unknown, empty recommendations); the result does not depend on any of
the later queries, which are never run. -/
theorem unknown_equipment_C10 (inp : HealthInput) (h : inp.equip = none) :
    get_equipment_health_score inp = defaultHealthMetrics := by
  unfold get_equipment_health_score
  rw [h]

theorem unknown_equipment_C10_witness :
    get_equipment_health_score ⟨none, 5, 7, 3, 2, 30⟩ = defaultHealthMetrics :=
  unknown_equipment_C10 ⟨none, 5, 7, 3, 2, 30⟩ rfl

/-- Modelled from the claim text of C7: `pm_compliance = min(100,
completed/expected * 100)` as an exact untruncated value (0/0 giving 0). -/
def spec_pm_compliance (expected completed : Nat) : ℚ :=
  if 0 < expected then min 100 ((completed : ℚ) / (expected : ℚ) * 100) else 0

/-- Modelled from the claim text of C7: start at 100, subtract
`(100 - pm_compliance) * 0.3` with the exact compliance ratio, subtract the
CM-frequency and status deductions, clamp to [0, 100], truncate. -/
def spec_health_score (e : EquipRow) (completed_pms cm_count : Nat) : ℤ :=
  pyInt (max 0 (min 100
    (100 - (100 - spec_pm_compliance (expected_pms_of e) completed_pms) * (3 / 10)
      - (if 1 < round1 ((cm_count : ℚ) / 12) then
          min 20 ((round1 ((cm_count : ℚ) / 12) - 1) * 10) else 0)
      - (if e.status ≠ "Active" then 30 else 0))))

/-- The claim C7 formula as amended: the compliance ratio is truncated to an
integer (Python `int()`) before the cap, exactly as the code does. -/
def spec_pm_compliance_trunc (expected completed : Nat) : ℚ :=
  if 0 < expected then
    min 100 ((pyInt ((completed : ℚ) / (expected : ℚ) * 100) : ℚ)) else 0

/-- The amended C7 health-score formula: identical to `spec_health_score`
except that `pm_compliance` uses the truncated ratio. -/
def spec_health_score_trunc (e : EquipRow) (completed_pms cm_count : Nat) : ℤ :=
  pyInt (max 0 (min 100
    (100 - (100 - spec_pm_compliance_trunc (expected_pms_of e) completed_pms) * (3 / 10)
      - (if 1 < round1 ((cm_count : ℚ) / 12) then
          min 20 ((round1 ((cm_count : ℚ) / 12) - 1) * 10) else 0)
      - (if e.status ≠ "Active" then 30 else 0))))

theorem spec_pm_compliance_trunc_eq (expected completed : Nat) :
    spec_pm_compliance_trunc expected completed =
      ((pm_compliance_of expected completed : ℤ) : ℚ) := by
  unfold spec_pm_compliance_trunc pm_compliance_of
  split_ifs with h
  · push_cast
    rfl
  · norm_num

theorem health_metrics_for_recs (e : EquipRow) (c n : Nat) (ph ch : ℚ) (pr : Nat) :
    (health_metrics_for e c n ph ch pr).recommendations =
      (if pm_compliance_of (expected_pms_of e) c < 80 then
        ["Improve PM compliance - currently below 80%"] else []) ++
      (if 2 < round1 ((n : ℚ) / 12) then
        ["High CM frequency - investigate root causes"] else []) ++
      (if 20 < pr then ["High parts usage - review equipment reliability"] else []) ++
      (if e.status ≠ "Active" then
        ["Equipment status is \x27" ++ e.status ++ "\x27 - review and update"] else []) := rfl

theorem health_metrics_for_pmc (e : EquipRow) (c n : Nat) (ph ch : ℚ) (pr : Nat) :
    (health_metrics_for e c n ph ch pr).pm_compliance =
      pm_compliance_of (expected_pms_of e) c := rfl

theorem health_metrics_for_cmf (e : EquipRow) (c n : Nat) (ph ch : ℚ) (pr : Nat) :
    (health_metrics_for e c n ph ch pr).cm_frequency = round1 ((n : ℚ) / 12) := rfl

theorem pm_compliance_of_12_9 : pm_compliance_of 12 9 = 75 := by
  unfold pm_compliance_of pyInt
  rw [if_pos (by norm_num)]
  have h912 : ((9 : Nat) : ℚ) / ((12 : Nat) : ℚ) * 100 = 75 := by push_cast; norm_num
  rw [h912, if_pos (by norm_num)]
  have hf : ⌊(75 : ℚ)⌋ = 75 := by rw [Int.floor_eq_iff]; norm_num
  rw [hf]
  norm_num

theorem round1_zero : round1 (((0 : Nat) : ℚ) / 12) = 0 := by
  unfold round1 roundHalfEven
  norm_num

theorem pm_compliance_of_12_2 : pm_compliance_of 12 2 = 16 := by
  unfold pm_compliance_of pyInt
  rw [if_pos (by norm_num)]
  have h2 : ((2 : Nat) : ℚ) / ((12 : Nat) : ℚ) * 100 = 50 / 3 := by push_cast; norm_num
  rw [h2, if_pos (by norm_num)]
  have hf : ⌊(50 / 3 : ℚ)⌋ = 16 := by rw [Int.floor_eq_iff]; norm_num
  rw [hf]
  norm_num

theorem health_score_raw_active_zero (pmc : ℤ) :
    health_score_raw "Active" pmc (round1 (((0 : Nat) : ℚ) / 12)) =
      100 - (100 - (pmc : ℚ)) * (3 / 10) := by
  unfold health_score_raw
  rw [round1_zero]
  rw [if_neg (by norm_num : ¬ (1 : ℚ) < 0), if_neg (by simp)]
  ring

/-- C7 counterexample: for Active equipment with monthly PM (expected 12),
2 completions and 0 corrective events, the code truncates the compliance
ratio (16.67 → 16) before applying the formula and returns health_score 74,
while the formula as claimed — `pm_compliance = min(100, completed/expected
* 100)` untruncated — yields 75. -/
theorem health_formula_counterexample_C7 :
    (get_equipment_health_score ⟨some ⟨"Active", "X", ""⟩, 2, 0, 0, 0, 0⟩).health_score
      = 74 ∧
    spec_health_score ⟨"Active", "X", ""⟩ 2 0 = 75 := by
  constructor
  · have hg : get_equipment_health_score ⟨some ⟨"Active", "X", ""⟩, 2, 0, 0, 0, 0⟩ =
        health_metrics_for ⟨"Active", "X", ""⟩ 2 0 0 0 0 := rfl
    rw [hg, health_metrics_for_score]
    have hexp : expected_pms_of ⟨"Active", "X", ""⟩ = 12 := rfl
    rw [show (⟨"Active", "X", ""⟩ : EquipRow).status = "Active" from rfl, hexp,
      pm_compliance_of_12_2, health_score_raw_active_zero]
    have hval : (100 : ℚ) - (100 - ((16 : ℤ) : ℚ)) * (3 / 10) = 374 / 5 := by
      push_cast; norm_num
    rw [hval]
    unfold pyInt
    rw [if_pos (by norm_num)]
    have hf : ⌊(374 / 5 : ℚ)⌋ = 74 := by rw [Int.floor_eq_iff]; norm_num
    rw [hf]
    norm_num
  · unfold spec_health_score spec_pm_compliance
    rw [show expected_pms_of ⟨"Active", "X", ""⟩ = 12 from rfl]
    rw [if_pos (by norm_num)]
    have h2 : ((2 : Nat) : ℚ) / ((12 : Nat) : ℚ) * 100 = 50 / 3 := by push_cast; norm_num
    rw [h2, min_eq_right (by norm_num : (50 / 3 : ℚ) ≤ 100)]
    rw [round1_zero]
    rw [if_neg (by norm_num : ¬ (1 : ℚ) < 0),
      if_neg (by simp : ¬ (⟨"Active", "X", ""⟩ : EquipRow).status ≠ "Active")]
    have hval : (100 : ℚ) - (100 - 50 / 3) * (3 / 10) - 0 - 0 = 75 := by norm_num
    rw [hval, min_eq_right (by norm_num : (75 : ℚ) ≤ 100),
      max_eq_right (by norm_num : (0 : ℚ) ≤ 75)]
    unfold pyInt
    rw [if_pos (by norm_num)]
    rw [Int.floor_eq_iff]
    norm_num

/-- C7 (amended): the health score is computed exactly as the claim states
once `pm_compliance` is read as `min(100, int(completed/expected * 100))` —
the ratio is truncated to an integer before capping, as the code does.  For
every existing equipment row the code's health_score equals the amended
formula (the claim's clamp to [0, 100] before truncation never differs from
the code's `max(0, int(score))` because the raw score stays in [20, 100]),
and Scenario D holds: monthly PM (expected 12), 9 completions, 0 corrective
events, status Active give pm_compliance 75, cm_frequency 0, health_score 92
and exactly the single low-compliance recommendation. -/
theorem health_formula_C7 (inp : HealthInput) (e : EquipRow) (h : inp.equip = some e) :
    (get_equipment_health_score inp).health_score =
      spec_health_score_trunc e inp.completed_pms inp.cm_count ∧
    (get_equipment_health_score inpHealthEx).health_score = 92 ∧
    (get_equipment_health_score inpHealthEx).pm_compliance = 75 ∧
    (get_equipment_health_score inpHealthEx).cm_frequency = 0 ∧
    (get_equipment_health_score inpHealthEx).recommendations =
      ["Improve PM compliance - currently below 80%"] := by
  have hgeneral : ∀ (inp2 : HealthInput) (e2 : EquipRow), inp2.equip = some e2 →
      (get_equipment_health_score inp2).health_score =
        spec_health_score_trunc e2 inp2.completed_pms inp2.cm_count := by
    intro inp2 e2 h2
    have hg : get_equipment_health_score inp2 =
        health_metrics_for e2 inp2.completed_pms inp2.cm_count inp2.pm_hours
          inp2.cm_hours inp2.parts_requests := by
      unfold get_equipment_health_score
      rw [h2]
    rw [hg, health_metrics_for_score]
    unfold spec_health_score_trunc
    rw [spec_pm_compliance_trunc_eq]
    have hb := health_score_raw_bounds e2.status
      (pm_compliance_of (expected_pms_of e2) inp2.completed_pms)
      (round1 ((inp2.cm_count : ℚ) / 12)) (pm_compliance_nonneg _ _)
      (pm_compliance_le _ _)
    have hinner : (100 : ℚ) -
        (100 - ((pm_compliance_of (expected_pms_of e2) inp2.completed_pms : ℤ) : ℚ))
          * (3 / 10)
        - (if 1 < round1 ((inp2.cm_count : ℚ) / 12) then
            min 20 ((round1 ((inp2.cm_count : ℚ) / 12) - 1) * 10) else 0)
        - (if e2.status ≠ "Active" then 30 else 0) =
        health_score_raw e2.status
          (pm_compliance_of (expected_pms_of e2) inp2.completed_pms)
          (round1 ((inp2.cm_count : ℚ) / 12)) := rfl
    rw [hinner, min_eq_right hb.2,
      max_eq_right (show (0 : ℚ) ≤ health_score_raw e2.status
        (pm_compliance_of (expected_pms_of e2) inp2.completed_pms)
        (round1 ((inp2.cm_count : ℚ) / 12)) by linarith [hb.1])]
    unfold pyInt
    rw [if_pos (show (0 : ℚ) ≤ health_score_raw e2.status
      (pm_compliance_of (expected_pms_of e2) inp2.completed_pms)
      (round1 ((inp2.cm_count : ℚ) / 12)) by linarith [hb.1])]
    rw [max_eq_right (Int.le_floor.mpr (by push_cast; linarith [hb.1]))]
  refine ⟨hgeneral inp e h, ?_, ?_, ?_, ?_⟩
  · have hg : get_equipment_health_score inpHealthEx =
        health_metrics_for ⟨"Active", "X", ""⟩ 9 0 0 0 0 := rfl
    rw [hg, health_metrics_for_score,
      show (⟨"Active", "X", ""⟩ : EquipRow).status = "Active" from rfl,
      show expected_pms_of ⟨"Active", "X", ""⟩ = 12 from rfl,
      pm_compliance_of_12_9, health_score_raw_active_zero]
    have hval : (100 : ℚ) - (100 - ((75 : ℤ) : ℚ)) * (3 / 10) = 185 / 2 := by
      push_cast
      norm_num
    rw [hval]
    unfold pyInt
    rw [if_pos (by norm_num)]
    have hf : ⌊(185 / 2 : ℚ)⌋ = 92 := by rw [Int.floor_eq_iff]; norm_num
    rw [hf]
    norm_num
  · rw [show get_equipment_health_score inpHealthEx =
        health_metrics_for ⟨"Active", "X", ""⟩ 9 0 0 0 0 from rfl,
      health_metrics_for_pmc, show expected_pms_of ⟨"Active", "X", ""⟩ = 12 from rfl,
      pm_compliance_of_12_9]
  · rw [show get_equipment_health_score inpHealthEx =
        health_metrics_for ⟨"Active", "X", ""⟩ 9 0 0 0 0 from rfl,
      health_metrics_for_cmf, round1_zero]
  · rw [show get_equipment_health_score inpHealthEx =
        health_metrics_for ⟨"Active", "X", ""⟩ 9 0 0 0 0 from rfl,
      health_metrics_for_recs, show expected_pms_of ⟨"Active", "X", ""⟩ = 12 from rfl,
      pm_compliance_of_12_9, round1_zero]
    simp

theorem health_formula_C7_witness :
    (get_equipment_health_score inpHealthEx).health_score =
      spec_health_score_trunc ⟨"Active", "X", ""⟩ 9 0 :=
  (health_formula_C7 inpHealthEx ⟨"Active", "X", ""⟩ rfl).1

/-- Gregorian leap-year rule (as Python's `datetime` calendar uses). -/
def isLeap (y : Nat) : Bool :=
  y % 4 = 0 && (y % 100 ≠ 0 || y % 400 = 0)

/-- Days in a Gregorian month. -/
def daysInMonth (y m : Nat) : Nat :=
  if m = 2 then (if isLeap y then 29 else 28)
  else if m = 4 ∨ m = 6 ∨ m = 9 ∨ m = 11 then 30
  else 31

/-- A calendar date (the date component of `datetime.now()`). -/
structure Date where
  year : Nat
  month : Nat
  day : Nat
deriving Repr, DecidableEq

/-- The previous calendar day. -/
def prevDay (d : Date) : Date :=
  if 1 < d.day then ⟨d.year, d.month, d.day - 1⟩
  else if 1 < d.month then ⟨d.year, d.month - 1, daysInMonth d.year (d.month - 1)⟩
  else ⟨d.year - 1, 12, 31⟩

/-- `date - timedelta(days = n)`. -/
def subDays (d : Date) : Nat → Date
  | 0 => d
  | n + 1 => prevDay (subDays d n)

/-- Two-digit zero-padded month, as `%m` prints it. -/
def pad2 (n : Nat) : String := if n < 10 then "0" ++ toString n else toString n

/-- `strftime('%Y-%m')`. -/
def monthLabel (y m : Nat) : String := toString y ++ "-" ++ pad2 m

/-- The month-label generation of `get_maintenance_trends`: for
`i in range(months)`, insert `(now - timedelta(days=30*i)).strftime('%Y-%m')`
at position 0 of the list. -/
def trend_month_labels (now : Date) (months : Nat) : List String :=
  ((List.range months).map (fun i =>
    monthLabel (subDays now (30 * i)).year (subDays now (30 * i)).month)).reverse

/-- The bucket-end computation of `get_maintenance_trends` applied to a label
year/month: December rolls to January 1 of the next year, otherwise the first
of the next month. -/
def trend_month_end (y m : Nat) : Nat × Nat :=
  if m = 12 then (y + 1, 1) else (y, m + 1)

/-- The preceding calendar month of a (year, month) pair. -/
def prevMonth (ym : Nat × Nat) : Nat × Nat :=
  if ym.2 = 1 then (ym.1 - 1, 12) else (ym.1, ym.2 - 1)

/-- Modelled from the spec: the `months` consecutive calendar-month labels
ending at the current month, oldest first. -/
def consecutive_month_labels (now : Date) (months : Nat) : List String :=
  ((List.range months).map (fun i =>
    monthLabel (prevMonth^[i] (now.year, now.month)).1
      (prevMonth^[i] (now.year, now.month)).2)).reverse

set_option maxRecDepth 8192 in
/-- C8 (code-bug evaluation): at current date 2025-03-01 with `months = 4`
the 30-day-steps label generation produces
`["2024-12", "2024-12", "2025-01", "2025-03"]` — December duplicated,
February missing — which is not the list of 4 consecutive calendar months
ending at the current month; the per-bucket month_end arithmetic itself does
roll December 2024 over to January 2025 correctly. -/
theorem trend_months_bug_C8 :
    trend_month_labels ⟨2025, 3, 1⟩ 4 = ["2024-12", "2024-12", "2025-01", "2025-03"] ∧
    consecutive_month_labels ⟨2025, 3, 1⟩ 4 =
      ["2024-12", "2025-01", "2025-02", "2025-03"] ∧
    trend_month_labels ⟨2025, 3, 1⟩ 4 ≠ consecutive_month_labels ⟨2025, 3, 1⟩ 4 ∧
    trend_month_end 2024 12 = (2025, 1) := by
  refine ⟨by decide, by decide, by decide, rfl⟩
